import Mathlib

/-!
Shallow embedding of the core of `src/bin/wee_database.py`:

* `check_type` / `set_type`          (lines 901-922)
* the scan/repair loop of `check_strings`   (lines 925-1056)
* `_parse_dates`                      (lines 1059-1166)

Modelling conventions:

* SQLite row values (`None`, `int`, `float`, `str`, `bytes`) become the
  inductive type `PyVal`.  Python floats are modelled as exact rationals
  (`Rat`); IEEE rounding, `inf` and `nan` are outside the model (none of
  the verified properties depend on them).
* Python string-to-number conversion (`int(s)`, `float(s)`) is modelled by
  executable parsers over `List Char`.  Underscore digit separators and
  non-ASCII digits accepted by CPython are not modelled.
* `bytes.decode` with the UTF-8 codec is modelled by an executable UTF-8
  decoder; `UnicodeDecodeError` is a `ValueError` subclass in Python, so a
  decode failure is a `ValueError` here as well.
* `datetime.datetime` values are modelled as `Int` seconds from the civil
  epoch 1970-01-01 (via the standard days-from-civil calendar algorithm);
  `timedelta(days=1)` is `+ 86400`, `timedelta(seconds=1)` is `+ 1`.
  `datetime`'s MINYEAR/MAXYEAR bounds and the `OverflowError` reachable
  only by adding one day to 9999-12-31 are not modelled.
* Command-line strings for `--date` / `--from` / `--to` are modelled
  structurally by `DTInput`: the constructor records whether the string
  contains a time component, which is exactly what the source's
  `'T' in options.xxx` test dispatches on; `strptime` range validation
  becomes an explicit validity check.
-/

namespace WeeDatabase

/-- A value stored in (or read from) an SQLite archive row. -/
inductive PyVal where
  | none
  | int (i : Int)
  | float (q : Rat)
  | str (s : String)
  | bytes (bs : List Nat)
deriving DecidableEq

/-- Python whitespace stripped by `int(...)`/`float(...)` (common subset). -/
def isPyWS (c : Char) : Bool := c = ' ' || c = '\t' || c = '\n' || c = '\r'

/-- Strip leading and trailing whitespace. -/
def stripWS (cs : List Char) : List Char :=
  ((cs.dropWhile isPyWS).reverse.dropWhile isPyWS).reverse

/-- Numeric value of a digit list. -/
def natValD (ds : List Char) : Nat :=
  ds.foldl (fun a c => 10 * a + (c.toNat - 48)) 0

/-- Python `int(s)` on the character list of a string: optional sign then a
nonempty digit run (after whitespace stripping). `none` models `ValueError`. -/
def pyParseInt (cs : List Char) : Option Int :=
  match stripWS cs with
  | '+' :: ds => if ds ≠ [] ∧ ds.all Char.isDigit then some (natValD ds : Int) else none
  | '-' :: ds => if ds ≠ [] ∧ ds.all Char.isDigit then some (-(natValD ds : Int)) else none
  | ds => if ds ≠ [] ∧ ds.all Char.isDigit then some (natValD ds : Int) else none

/-- Exponent part of a float literal: optional sign then nonempty digits. -/
def parseExpPart : List Char → Option Int
  | [] => Option.none
  | '+' :: ds => if ds ≠ [] ∧ ds.all Char.isDigit then some (natValD ds : Int) else none
  | '-' :: ds => if ds ≠ [] ∧ ds.all Char.isDigit then some (-(natValD ds : Int)) else none
  | ds => if ds.all Char.isDigit then some (natValD ds : Int) else none

/-- Scale a rational by a power of ten. -/
def applyExp (q : Rat) (k : Int) : Rat :=
  if 0 ≤ k then q * (10 : Rat) ^ k.toNat else q / (10 : Rat) ^ (-k).toNat

/-- Unsigned part of Python `float(s)`: `digits[.digits][(e|E)exp]` or
`.digits[(e|E)exp]`, valued exactly (no IEEE rounding). -/
def pyParseFloatCore (cs : List Char) : Option Rat :=
  let ip := cs.takeWhile Char.isDigit
  let rest := cs.dropWhile Char.isDigit
  match rest with
  | [] => if ip = [] then none else some (natValD ip : Rat)
  | '.' :: rest2 =>
    let fp := rest2.takeWhile Char.isDigit
    let rest3 := rest2.dropWhile Char.isDigit
    if ip = [] ∧ fp = [] then none
    else
      let mant : Rat := (natValD ip : Rat) + (natValD fp : Rat) / ((10 : Rat) ^ fp.length)
      match rest3 with
      | [] => some mant
      | c :: rest4 =>
        if c = 'e' ∨ c = 'E' then (parseExpPart rest4).map (applyExp mant) else none
  | c :: rest4 =>
    if (c = 'e' ∨ c = 'E') ∧ ip ≠ [] then
      (parseExpPart rest4).map (applyExp (natValD ip : Rat))
    else none

/-- Python `float(s)`: strip whitespace, optional sign, unsigned literal. -/
def pyParseFloat (cs : List Char) : Option Rat :=
  match stripWS cs with
  | '+' :: r => pyParseFloatCore r
  | '-' :: r => (pyParseFloatCore r).map Neg.neg
  | r => pyParseFloatCore r

/-- Continuation byte test for UTF-8. -/
def isCont (b : Nat) : Bool := 0x80 ≤ b && b < 0xC0

/-- Executable UTF-8 decoder over byte values, rejecting overlong forms,
surrogates and out-of-range code points (as Python `bytes.decode` does). -/
def utf8Decode : List Nat → Option (List Char)
  | [] => some []
  | b :: rest =>
    if b < 0x80 then
      match utf8Decode rest with
      | some cs => some (Char.ofNat b :: cs)
      | none => none
    else if b < 0xC2 then none
    else if b < 0xE0 then
      match rest with
      | b1 :: rest1 =>
        if isCont b1 then
          match utf8Decode rest1 with
          | some cs => some (Char.ofNat ((b - 0xC0) * 64 + (b1 - 0x80)) :: cs)
          | none => none
        else none
      | [] => none
    else if b < 0xF0 then
      match rest with
      | b1 :: b2 :: rest2 =>
        if isCont b1 && isCont b2 then
          let cp := (b - 0xE0) * 4096 + (b1 - 0x80) * 64 + (b2 - 0x80)
          if cp < 0x800 ∨ (0xD800 ≤ cp ∧ cp ≤ 0xDFFF) then none
          else
            match utf8Decode rest2 with
            | some cs => some (Char.ofNat cp :: cs)
            | none => none
        else none
      | _ => none
    else if b < 0xF5 then
      match rest with
      | b1 :: b2 :: b3 :: rest3 =>
        if isCont b1 && isCont b2 && isCont b3 then
          let cp := (b - 0xF0) * 262144 + (b1 - 0x80) * 4096 + (b2 - 0x80) * 64 + (b3 - 0x80)
          if cp < 0x10000 ∨ 0x10FFFF < cp then none
          else
            match utf8Decode rest3 with
            | some cs => some (Char.ofNat cp :: cs)
            | none => none
        else none
      | _ => none
    else none

/-- Python `int(val)` for a stored value; `none` models `ValueError`.
`int(float)` truncates toward zero and never fails on finite floats;
`int(bytes)` accepts ASCII digit strings.  `int(None)` raises `TypeError`
in Python; it is unreachable from the scanner, which skips null cells. -/
def pyInt : PyVal → Option Int
  | .int i => some i
  | .float q => some (q.num.tdiv (q.den : Int))
  | .str s => pyParseInt s.data
  | .bytes bs => if bs.all (· < 0x80) then pyParseInt (bs.map Char.ofNat) else none
  | .none => none

/-- Python `float(val)` for a stored value; `none` models `ValueError`. -/
def pyFloat : PyVal → Option Rat
  | .int i => some (i : Rat)
  | .float q => some q
  | .str s => pyParseFloat s.data
  | .bytes bs => if bs.all (· < 0x80) then pyParseFloat (bs.map Char.ofNat) else none
  | .none => none

/-- Python `str(val)` (for the values `set_type` can reach it with).  The
rendering of floats is a model approximation: the exact repr digits of
CPython are not reproduced, and no verified property depends on them.
`set_type` never applies `str` to `bytes` (they are decoded instead). -/
def pyStrOf : PyVal → String
  | .none => "None"
  | .int i => toString i
  | .float q => if q.den = 1 then toString q.num ++ ".0" else toString q
  | .str s => s
  | .bytes bs => toString bs

/-- Source lines 901-909: `check_type(val, expected)`.  `isinstance` tests
become constructor tests; the final `else` raises `ValueError`. -/
def check_type (val : PyVal) (expected : String) : Except String Bool :=
  if expected = "INTEGER" then
    .ok (match val with | .int _ => true | _ => false)
  else if expected = "REAL" then
    .ok (match val with | .float _ => true | _ => false)
  else if expected = "STR" ∨ expected = "TEXT" then
    .ok (match val with | .str _ => true | _ => false)
  else
    .error ("Unknown type " ++ expected)

/-- Source lines 912-922: `set_type(val, target)`.  Coercion failures
(`ValueError`, including `UnicodeDecodeError`) are `.error`; the final
`else` raises `ValueError("Unknown type ...")`. -/
def set_type (val : PyVal) (target : String) : Except String PyVal :=
  if target = "INTEGER" then
    match pyInt val with
    | some i => .ok (.int i)
    | none => .error "invalid literal for int()"
  else if target = "REAL" then
    match pyFloat val with
    | some q => .ok (.float q)
    | none => .error "could not convert string to float"
  else if target = "STR" ∨ target = "TEXT" then
    match val with
    | .bytes bs =>
      match utf8Decode bs with
      | some cs => .ok (.str (String.mk cs))
      | none => .error "UnicodeDecodeError"
    | v => .ok (.str (pyStrOf v))
  else
    .error ("Unknown type " ++ target)

/-! ## Calendar model for `_parse_dates` -/

/-- Gregorian leap-year test. -/
def isLeap (y : Nat) : Bool := y % 4 = 0 && (y % 100 ≠ 0 || y % 400 = 0)

/-- Days in a month of the Gregorian calendar. -/
def daysInMonth (y m : Nat) : Nat :=
  if m = 2 then (if isLeap y then 29 else 28)
  else if m = 4 ∨ m = 6 ∨ m = 9 ∨ m = 11 then 30
  else 31

/-- Date validity as enforced by `strptime` with format `%Y-%m-%d`. -/
def validDateB (y m d : Nat) : Bool :=
  1 ≤ y && y ≤ 9999 && 1 ≤ m && m ≤ 12 && 1 ≤ d && d ≤ daysInMonth y m

/-- Days from 1970-01-01 to the civil date `y-m-d` (standard algorithm). -/
def daysFromCivil (y m d : Nat) : Int :=
  let yAdj := if m ≤ 2 then y - 1 else y
  let era := yAdj / 400
  let yoe := yAdj % 400
  let mp := if 2 < m then m - 3 else m + 9
  let doy := (153 * mp + 2) / 5 + d - 1
  let doe := yoe * 365 + yoe / 4 - yoe / 100 + doy
  ((era * 146097 + doe : Nat) : Int) - 719468

/-- Seconds at midnight at the start of civil day `y-m-d`. -/
def midnight (y m d : Nat) : Int := 86400 * daysFromCivil y m d

/-- A `--date` / `--from` / `--to` argument, modelled structurally: the
constructor records whether the string contains a time component (the
source dispatches on `'T' in options.xxx`). -/
inductive DTInput where
  | dateOnly (y m d : Nat)
  | dateTime (y m d hh mi : Nat)
deriving DecidableEq

/-- `datetime.strptime(s, "%Y-%m-%d")`: accepts only a date-only string
with in-range fields; a string with a time component does not match. -/
def strptimeDate : DTInput → Option Int
  | .dateOnly y m d => if validDateB y m d then some (midnight y m d) else none
  | .dateTime _ _ _ _ _ => none

/-- `datetime.strptime(s, "%Y-%m-%dT%H:%M")`: accepts only a string with a
time component, with in-range fields. -/
def strptimeDateTime : DTInput → Option Int
  | .dateTime y m d hh mi =>
    if validDateB y m d && hh < 24 && mi < 60 then
      some (midnight y m d + 3600 * hh + 60 * mi)
    else none
  | .dateOnly _ _ _ => none

/-- The optparse options consumed by `_parse_dates`: the three date
options (absent = `None`) and the three action flags it inspects. -/
structure Options where
  date : Option DTInput
  from_date : Option DTInput
  to_date : Option DTInput
  rebuild_daily : Bool
  reweight : Bool
  calc_missing : Bool

/-- Errors raised by `_parse_dates`: `ValueError` and
`weewx.ViolatedPrecondition`. -/
inductive DatesError where
  | valueError (msg : String)
  | violatedPrecondition (msg : String)
deriving DecidableEq

/-- Source lines 1124-1134: resolve `--from` (when `--date` is absent).
A time-bearing string is parsed exactly; a date-only string parses as
midnight at the start of the day; parse failure raises `ValueError`. -/
def resolveFrom (o : Options) : Except DatesError (Option Int) :=
  match o.from_date with
  | Option.none => .ok none
  | some i =>
    match i with
    | .dateTime y m d hh mi =>
      match strptimeDateTime (.dateTime y m d hh mi) with
      | some f => .ok (some f)
      | none => .error (.valueError "Invalid --from option specified.")
    | .dateOnly y m d =>
      match strptimeDate (.dateOnly y m d) with
      | some f => .ok (some f)
      | none => .error (.valueError "Invalid --from option specified.")

/-- Source lines 1136-1160: resolve `--to` (when `--date` is absent).
A time-bearing string is parsed exactly.  A date-only string parses as
midnight; then for `rebuild-daily`/`reweight` it is left unchanged, and
for `calc-missing` (or any other consumer) one day is added. -/
def resolveTo (o : Options) : Except DatesError (Option Int) :=
  match o.to_date with
  | Option.none => .ok none
  | some i =>
    match i with
    | .dateTime y m d hh mi =>
      match strptimeDateTime (.dateTime y m d hh mi) with
      | some t => .ok (some t)
      | none => .error (.valueError "Invalid --to option specified.")
    | .dateOnly y m d =>
      match strptimeDate (.dateOnly y m d) with
      | some t0 =>
        if o.rebuild_daily || o.reweight then .ok (some t0)
        else if o.calc_missing then .ok (some (t0 + 86400))
        else .ok (some (t0 + 86400))
      | none => .error (.valueError "Invalid --to option specified.")

/-- Source lines 1059-1166: `_parse_dates(options)`.  The `--date` branch
returns early (line 1121) without reaching the final ordering check; the
`--from`/`--to` branch raises `ViolatedPrecondition` when both bounds are
present and `to < from`. -/
def parse_dates (o : Options) : Except DatesError (Option Int × Option Int) :=
  match o.date with
  | some d =>
    if o.from_date.isSome || o.to_date.isSome then
      .error (.valueError "Specify either --date or a --from and --to combination; not both")
    else
      match strptimeDate d with
      | Option.none => .error (.valueError "Invalid --date option specified.")
      | some from_dt =>
        if o.rebuild_daily || o.reweight then
          .ok (some from_dt, some from_dt)
        else if o.calc_missing then
          .ok (some (from_dt + 1), some (from_dt + 86400))
        else
          .ok (some from_dt, some (from_dt + 86400))
  | Option.none =>
    match resolveFrom o with
    | .error e => .error e
    | .ok from_dt =>
      match resolveTo o with
      | .error e => .error e
      | .ok to_dt =>
        match from_dt, to_dt with
        | some f, some t =>
          if t < f then
            .error (.violatedPrecondition "--from value is later than --to value.")
          else .ok (some f, some t)
        | f, t => .ok (f, t)

/-! ## The scan/repair loop of `check_strings` (source lines 944-1045)

The database-facing pieces are made explicit: `genBatchRows` becomes the
input list of records, `genSchemaOf` becomes the `names`/`types` lists,
and each `dbmanager.updateValue(ts, col, v)` call becomes an element of an
emitted update list, applied to the record list by `applyUpdates`.
Printing, logging and timing are dropped.  The source indexes
`obs_list[icol]`/`obs_type_list[icol]` for `icol in range(len(record))`
and would raise `IndexError` if a record were longer than the schema; the
model zips record and schema instead, and the theorems that need it
assume equal lengths. -/

/-- One `updateValue` call: (timestamp key, column name, new value). -/
abbrev Upd := PyVal × String × PyVal

/-- One element of the `_found` report list.  In fix mode the source
appends 4-tuples (with the replacement value), otherwise 3-tuples;
`repl = some v` models the 4-tuple case. -/
structure FoundEntry where
  ts : PyVal
  col : String
  old : PyVal
  repl : Option PyVal
deriving DecidableEq

/-- Source lines 975-978: coerce to the correct type; if it cannot be done
(`ValueError`), use `None`. -/
def repair (v : PyVal) (target : String) : PyVal :=
  match set_type v target with
  | .ok w => w
  | .error _ => .none

/-- Source lines 963-987, one column of one record: skip nulls, test the
declared type, and in fix mode record (and, unless dry-run, write back)
the repaired value.  An unknown declared type propagates `check_type`'s
`ValueError` (uncaught in the source). -/
def scanCell (ts : PyVal) (c : PyVal × String × String) (fix dry : Bool) :
    Except String (Option FoundEntry × List Upd) :=
  if c.1 = PyVal.none then .ok (none, [])
  else
    match check_type c.1 c.2.2 with
    | .error e => .error e
    | .ok true => .ok (none, [])
    | .ok false =>
      if fix then
        let corrected := repair c.1 c.2.2
        .ok (some ⟨ts, c.2.1, c.1, some corrected⟩,
             if dry then [] else [(ts, c.2.1, corrected)])
      else .ok (some ⟨ts, c.2.1, c.1, none⟩, [])

/-- Inner loop over the columns of one record. -/
def scanCells (ts : PyVal) (cs : List (PyVal × String × String)) (fix dry : Bool) :
    Except String (List FoundEntry × List Upd) :=
  match cs with
  | [] => .ok ([], [])
  | c :: rest =>
    match scanCell ts c fix dry with
    | .error e => .error e
    | .ok (f1, u1) =>
      match scanCells ts rest fix dry with
      | .error e => .error e
      | .ok (fs, us) => .ok (f1.toList ++ fs, u1 ++ us)

/-- Pair each cell of a record with its column name and declared type. -/
def zipCols (r : List PyVal) (names types : List String) :
    List (PyVal × String × String) :=
  r.zip (names.zip types)

/-- Scan one record; `record[0]` is its timestamp key. -/
def scanRecord (r : List PyVal) (names types : List String) (fix dry : Bool) :
    Except String (List FoundEntry × List Upd) :=
  scanCells (r.headD .none) (zipCols r names types) fix dry

/-- Outer loop of `check_strings` over all records, accumulating the
`_found` report and the write-backs issued. -/
def check_strings_scan (records : List (List PyVal)) (names types : List String)
    (fix dry : Bool) : Except String (List FoundEntry × List Upd) :=
  match records with
  | [] => .ok ([], [])
  | r :: rest =>
    match scanRecord r names types fix dry with
    | .error e => .error e
    | .ok (f1, u1) =>
      match check_strings_scan rest names types fix dry with
      | .error e => .error e
      | .ok (fs, us) => .ok (f1 ++ fs, u1 ++ us)

/-- Effect of `UPDATE archive SET col = v WHERE dateTime = ts` on one row:
set every column whose name matches. -/
def setCol (r : List PyVal) (names : List String) (col : String) (v : PyVal) :
    List PyVal :=
  (r.zip names).map (fun p => if p.2 = col then v else p.1)

/-- Apply one update to one record (keyed on `record[0]`). -/
def stepRecord (names : List String) (u : Upd) (r : List PyVal) : List PyVal :=
  if r.headD .none = u.1 then setCol r names u.2.1 u.2.2 else r

/-- Apply one update to the whole store. -/
def applyUpd (names : List String) (records : List (List PyVal)) (u : Upd) :
    List (List PyVal) :=
  records.map (stepRecord names u)

/-- Apply all emitted updates, in order, to the store. -/
def applyUpdates (names : List String) (records : List (List PyVal))
    (us : List Upd) : List (List PyVal) :=
  us.foldl (applyUpd names) records

/-- The four summary outcomes of source lines 1012-1045. -/
inductive Outcome where
  | foundNone
  | allFixed
  | couldNotFixAll
  | checkOnly
deriving DecidableEq

/-- Source line 1010: `fixed = len([a for a in _found if len(a) == 4])`. -/
def fixedCount (found : List FoundEntry) : Nat :=
  (found.filter (fun e => e.repl.isSome)).length

/-- Source lines 1012-1045: which summary message is selected. -/
def summarize (found : List FoundEntry) (fix : Bool) : Outcome :=
  if found.length = 0 then .foundNone
  else if fixedCount found = found.length then .allFixed
  else if fix then .couldNotFixAll
  else .checkOnly

/-- Decidable equality for `Except`, for evaluating scan results. -/
instance {ε α : Type} [DecidableEq ε] [DecidableEq α] : DecidableEq (Except ε α) :=
  fun a b =>
    match a, b with
    | .ok x, .ok y =>
      if h : x = y then .isTrue (by rw [h]) else .isFalse (by intro hc; cases hc; exact h rfl)
    | .error x, .error y =>
      if h : x = y then .isTrue (by rw [h]) else .isFalse (by intro hc; cases hc; exact h rfl)
    | .ok _, .error _ => .isFalse (fun hc => Except.noConfusion hc)
    | .error _, .ok _ => .isFalse (fun hc => Except.noConfusion hc)

/-- The declared type names `check_type`/`set_type` accept. -/
def knownType (t : String) : Prop :=
  t = "INTEGER" ∨ t = "REAL" ∨ t = "STR" ∨ t = "TEXT"

instance (t : String) : Decidable (knownType t) := by
  unfold knownType; infer_instance

/-- Value-kind predicate stated from the spec: an exact integral value
under the runtime representation reading (an `int`-represented value). -/
def isIntVal : PyVal → Bool
  | .int _ => true
  | _ => false

/-- Value-kind predicate stated from the spec: a floating-point
representable value (a `float`-represented value). -/
def isFloatVal : PyVal → Bool
  | .float _ => true
  | _ => false

/-- Value-kind predicate stated from the spec: a textual value
(a `str`-represented value). -/
def isStrVal : PyVal → Bool
  | .str _ => true
  | _ => false

/-- A cell that the scan does not flag: null, or passing its type test. -/
def cellOK (v : PyVal) (ty : String) : Prop :=
  v = PyVal.none ∨ check_type v ty = .ok true

instance (v : PyVal) (ty : String) : Decidable (cellOK v ty) := by
  unfold cellOK; infer_instance

/-- A store with no type mismatches at all. -/
def cleanStore (records : List (List PyVal)) (names types : List String) : Prop :=
  ∀ r ∈ records, ∀ c ∈ zipCols r names types, cellOK c.1 c.2.2

/-- Single-row view of `applyUpdates`: apply every update to one record. -/
def foldRecord (names : List String) (us : List Upd) (r : List PyVal) : List PyVal :=
  us.foldl (fun r u => stepRecord names u r) r

/-! ## Theorems -/

/-- Helper: when `--date` is absent, a successful resolution returns
exactly the values produced by `resolveFrom` and `resolveTo`. -/
theorem parse_dates_none (o : Options) (hd : o.date = Option.none) (a b : Option Int)
    (hp : parse_dates o = .ok (a, b)) :
    resolveFrom o = .ok a ∧ resolveTo o = .ok b ∧
      ∀ x y, a = some x → b = some y → x ≤ y := by
  unfold parse_dates at hp
  rw [hd] at hp
  cases hf : resolveFrom o with
  | error e => rw [hf] at hp; dsimp only at hp; exact Except.noConfusion hp
  | ok f =>
    rw [hf] at hp
    cases ht : resolveTo o with
    | error e => rw [ht] at hp; dsimp only at hp; exact Except.noConfusion hp
    | ok t =>
      rw [ht] at hp
      rcases f with _ | f <;> rcases t with _ | t <;> dsimp only at hp
      · cases hp; exact ⟨rfl, rfl, fun x y hx _ => Option.noConfusion hx⟩
      · cases hp; exact ⟨rfl, rfl, fun x y hx _ => Option.noConfusion hx⟩
      · cases hp; exact ⟨rfl, rfl, fun x y _ hy => Option.noConfusion hy⟩
      · by_cases hlt : t < f
        · rw [if_pos hlt] at hp; exact Except.noConfusion hp
        · rw [if_neg hlt] at hp
          cases hp
          refine ⟨rfl, rfl, fun x y hx hy => ?_⟩
          cases hx; cases hy; omega

/-- C2: for every valid date input and a calc-missing consumer, resolution
returns the window [midnight(date) + 1 second, midnight(date) + 1 day];
in particular --date=2023-06-15 resolves to start 2023-06-15T00:00:01 and
end 2023-06-16T00:00:00. -/
theorem calc_missing_date_window (y m d : Nat) (h : validDateB y m d = true) :
    parse_dates ⟨some (.dateOnly y m d), none, none, false, false, true⟩ =
      .ok (some (midnight y m d + 1), some (midnight y m d + 86400)) ∧
    parse_dates ⟨some (.dateOnly 2023 6 15), none, none, false, false, true⟩ =
      .ok (some (midnight 2023 6 15 + 1), some (midnight 2023 6 16)) := by
  constructor
  · simp [parse_dates, strptimeDate, h]
  · decide

/-- Witness for `calc_missing_date_window` at 2023-06-15. -/
theorem calc_missing_date_window_witness :
    parse_dates ⟨some (.dateOnly 2023 6 15), none, none, false, false, true⟩ =
      .ok (some (midnight 2023 6 15 + 1), some (midnight 2023 6 15 + 86400)) :=
  (calc_missing_date_window 2023 6 15 (by decide)).1

/-- C3: for every valid date input and a rebuild-daily or reweight
consumer, the resolved window collapses to a single instant:
start == end == midnight at the start of that day. -/
theorem rebuild_reweight_date_window (y m d : Nat) (h : validDateB y m d = true)
    (rb rw cm : Bool) (hc : (rb || rw) = true) :
    parse_dates ⟨some (.dateOnly y m d), none, none, rb, rw, cm⟩ =
      .ok (some (midnight y m d), some (midnight y m d)) := by
  simp [parse_dates, strptimeDate, h, hc]

/-- Witness for `rebuild_reweight_date_window` at 2023-06-15 with the
rebuild-daily flag set. -/
theorem rebuild_reweight_date_window_witness :
    parse_dates ⟨some (.dateOnly 2023 6 15), none, none, true, false, false⟩ =
      .ok (some (midnight 2023 6 15), some (midnight 2023 6 15)) :=
  rebuild_reweight_date_window 2023 6 15 (by decide) true false false (by decide)

/-- C1: for from/to input pairs whose to value is date-only, the resolved
end depends on the consumer: a calc-missing consumer gets
midnight(to) + 1 day, while a rebuild-daily or reweight consumer keeps
midnight(to) with no expansion. -/
theorem to_dateonly_end_expansion (f? : Option DTInput) (y m d : Nat)
    (h : validDateB y m d = true) :
    (∀ a b, parse_dates ⟨none, f?, some (.dateOnly y m d), false, false, true⟩ =
        .ok (a, b) → b = some (midnight y m d + 86400)) ∧
    (∀ rb rw cm a b, (rb || rw) = true →
        parse_dates ⟨none, f?, some (.dateOnly y m d), rb, rw, cm⟩ = .ok (a, b) →
        b = some (midnight y m d)) := by
  constructor
  · intro a b hp
    obtain ⟨-, h2, -⟩ := parse_dates_none _ rfl a b hp
    have ht : resolveTo ⟨none, f?, some (.dateOnly y m d), false, false, true⟩ =
        .ok (some (midnight y m d + 86400)) := by
      simp [resolveTo, strptimeDate, h]
    exact (Except.ok.inj (ht.symm.trans h2)).symm
  · intro rb rw cm a b hc hp
    obtain ⟨-, h2, -⟩ := parse_dates_none _ rfl a b hp
    have ht : resolveTo ⟨none, f?, some (.dateOnly y m d), rb, rw, cm⟩ =
        .ok (some (midnight y m d)) := by
      simp [resolveTo, strptimeDate, h, hc]
    exact (Except.ok.inj (ht.symm.trans h2)).symm

/-- Witness for `to_dateonly_end_expansion`: --from=2023-06-01,
--to=2023-06-30 under a rebuild-daily consumer resolves end to midnight of
2023-06-30 with no expansion. -/
theorem to_dateonly_end_expansion_witness :
    parse_dates ⟨none, some (.dateOnly 2023 6 1), some (.dateOnly 2023 6 30),
        true, false, false⟩ =
      .ok (some (midnight 2023 6 1), some (midnight 2023 6 30)) ∧
    (some (midnight 2023 6 30) : Option Int) = some (midnight 2023 6 30) :=
  ⟨by decide,
   (to_dateonly_end_expansion (some (.dateOnly 2023 6 1)) 2023 6 30 (by decide)).2
     true false false (some (midnight 2023 6 1)) (some (midnight 2023 6 30))
     (by decide) (by decide)⟩

/-- C5: every successful resolution with both bounds present satisfies
start <= end; in the from/to branch, bounds that would violate this make
resolution fail with ViolatedPrecondition rather than being swapped or
clamped (the --date branch returns early and always satisfies the
ordering). -/
theorem window_ordered_or_precondition_error :
    (∀ o a b, parse_dates o = .ok (some a, some b) → a ≤ b) ∧
    (∀ o f t, o.date = Option.none → resolveFrom o = .ok (some f) →
        resolveTo o = .ok (some t) → t < f →
        parse_dates o =
          .error (.violatedPrecondition "--from value is later than --to value.")) := by
  constructor
  · intro o a b hp
    cases hd : o.date with
    | some dd =>
      unfold parse_dates at hp
      rw [hd] at hp
      dsimp only at hp
      by_cases hfrom : (o.from_date.isSome || o.to_date.isSome) = true
      · rw [if_pos hfrom] at hp; exact Except.noConfusion hp
      · rw [if_neg hfrom] at hp
        cases hs : strptimeDate dd with
        | none => rw [hs] at hp; dsimp only at hp; exact Except.noConfusion hp
        | some m0 =>
          rw [hs] at hp; dsimp only at hp
          by_cases h1 : (o.rebuild_daily || o.reweight) = true
          · rw [if_pos h1] at hp; cases hp; exact le_refl _
          · rw [if_neg h1] at hp
            by_cases h2 : o.calc_missing = true
            · rw [if_pos h2] at hp; cases hp; omega
            · rw [if_neg h2] at hp; cases hp; omega
    | none =>
      obtain ⟨-, -, h3⟩ := parse_dates_none o hd _ _ hp
      exact h3 a b rfl rfl
  · intro o f t hd hf ht hlt
    unfold parse_dates
    rw [hd, hf, ht]
    dsimp only
    rw [if_pos hlt]

/-- Witness for `window_ordered_or_precondition_error` on the calc-missing
--date window for 2023-06-15. -/
theorem window_ordered_or_precondition_error_witness :
    midnight 2023 6 15 + 1 ≤ midnight 2023 6 15 + 86400 :=
  window_ordered_or_precondition_error.1
    ⟨some (.dateOnly 2023 6 15), none, none, false, false, true⟩
    (midnight 2023 6 15 + 1) (midnight 2023 6 15 + 86400) (by decide)

/-- C10: for every declared type name outside {INTEGER, REAL, STR, TEXT},
both the type test and the coercion raise ValueError("Unknown type ...");
in particular the name STRING is not accepted by either function. -/
theorem unknown_type_value_error (t : String)
    (h : ¬(t = "INTEGER" ∨ t = "REAL" ∨ t = "STR" ∨ t = "TEXT")) (v : PyVal) :
    check_type v t = .error ("Unknown type " ++ t) ∧
    set_type v t = .error ("Unknown type " ++ t) ∧
    check_type v "STRING" = .error "Unknown type STRING" ∧
    set_type v "STRING" = .error "Unknown type STRING" := by
  push_neg at h
  obtain ⟨h1, h2, h3, h4⟩ := h
  refine ⟨?_, ?_, ?_, ?_⟩
  · simp [check_type, h1, h2, h3, h4]
  · simp [set_type, h1, h2, h3, h4]
  · simp [check_type]
  · simp [set_type]

/-- Witness for `unknown_type_value_error` at the type name STRING. -/
theorem unknown_type_value_error_witness :
    check_type (.int 0) "STRING" = .error "Unknown type STRING" ∧
    set_type (.int 0) "STRING" = .error "Unknown type STRING" :=
  ⟨(unknown_type_value_error "STRING" (by decide) (.int 0)).1,
   (unknown_type_value_error "STRING" (by decide) (.int 0)).2.1⟩

/-- C6: a null stored value is never a violation (for any declared type,
even an unknown one), and a non-null value is flagged exactly when it
fails its declared type's test: INTEGER requires an int-represented
value, REAL a float-represented value, STR/TEXT a str-represented value. -/
theorem scan_violation_characterization :
    (∀ ts name ty fix dry,
        scanCell ts (PyVal.none, name, ty) fix dry = .ok (none, [])) ∧
    (∀ v, check_type v "INTEGER" = .ok (isIntVal v) ∧
          check_type v "REAL" = .ok (isFloatVal v) ∧
          check_type v "STR" = .ok (isStrVal v) ∧
          check_type v "TEXT" = .ok (isStrVal v)) ∧
    (∀ ts v name ty fix dry out, knownType ty →
        scanCell ts (v, name, ty) fix dry = .ok out →
        (out.1.isSome ↔ (v ≠ PyVal.none ∧ check_type v ty = .ok false))) := by
  refine ⟨?_, ?_, ?_⟩
  · intro ts name ty fix dry
    simp [scanCell]
  · intro v
    refine ⟨?_, ?_, ?_, ?_⟩ <;> cases v <;> rfl
  · rintro ts v name ty fix dry out (rfl | rfl | rfl | rfl) hp <;>
      cases fix <;> cases dry <;> cases v <;>
      (cases hp; simp [scanCell, check_type, isIntVal, isFloatVal, isStrVal])

/-- Witness for `scan_violation_characterization`: a text value under a
REAL column is flagged in a plain check scan. -/
theorem scan_violation_characterization_witness :
    ((some (FoundEntry.mk (.int 1000) "outTemp" (.str "x") none), ([] : List Upd)).1.isSome ↔
      (PyVal.str "x" ≠ PyVal.none ∧ check_type (.str "x") "REAL" = .ok false)) :=
  scan_violation_characterization.2.2 (.int 1000) (.str "x") "outTemp" "REAL" false false
    (some (FoundEntry.mk (.int 1000) "outTemp" (.str "x") none), [])
    (by decide) (by decide)

/-- C7: during repair, a violating value whose coercion fails is replaced
by the null sentinel and one whose coercion succeeds is replaced by the
coerced value; the fix-mode scan records exactly this repaired value as
the replacement, and the coercions are int(...) for INTEGER, float(...)
for REAL, and UTF-8 decoding for bytes under STR/TEXT. -/
theorem repair_replacement :
    (∀ v t w, set_type v t = .ok w → repair v t = w) ∧
    (∀ v t e, set_type v t = .error e → repair v t = PyVal.none) ∧
    (∀ v i, pyInt v = some i → set_type v "INTEGER" = .ok (.int i)) ∧
    (∀ v q, pyFloat v = some q → set_type v "REAL" = .ok (.float q)) ∧
    (∀ bs cs, utf8Decode bs = some cs →
        set_type (.bytes bs) "TEXT" = .ok (.str (String.mk cs))) ∧
    (∀ ts v name ty dry, v ≠ PyVal.none → check_type v ty = .ok false →
        scanCell ts (v, name, ty) true dry =
          .ok (some ⟨ts, name, v, some (repair v ty)⟩,
               if dry then [] else [(ts, name, repair v ty)])) := by
  refine ⟨?_, ?_, ?_, ?_, ?_, ?_⟩
  · intro v t w h; unfold repair; rw [h]
  · intro v t e h; unfold repair; rw [h]
  · intro v i h; simp [set_type, h]
  · intro v q h; simp [set_type, h]
  · intro bs cs h; simp [set_type, h]
  · intro ts v name ty dry hv hc
    simp [scanCell, hv, hc]

/-- Witness for `repair_replacement`: the text "3" under REAL coerces to
the float 3, while the text "abc" becomes the null sentinel. -/
theorem repair_replacement_witness :
    repair (.str "3") "REAL" = PyVal.float 3 ∧
    repair (.str "abc") "REAL" = PyVal.none :=
  ⟨repair_replacement.1 (.str "3") "REAL" (.float 3) (by decide),
   repair_replacement.2.1 (.str "abc") "REAL"
     "could not convert string to float" (by decide)⟩

/-- Helper: a dry-run cell scan is the real cell scan with its write-back
dropped. -/
theorem scanCell_dry (ts : PyVal) (c : PyVal × String × String) (fix : Bool) :
    scanCell ts c fix true = (scanCell ts c fix false).map (fun r => (r.1, [])) := by
  unfold scanCell
  by_cases h : c.1 = PyVal.none
  · rw [if_pos h, if_pos h]; rfl
  · rw [if_neg h, if_neg h]
    cases check_type c.1 c.2.2 with
    | error e => rfl
    | ok b =>
      cases b with
      | true => rfl
      | false => cases fix <;> rfl

/-- Helper: a dry-run record scan is the real record scan with its
write-backs dropped. -/
theorem scanCells_dry (ts : PyVal) (cs : List (PyVal × String × String)) (fix : Bool) :
    scanCells ts cs fix true = (scanCells ts cs fix false).map (fun r => (r.1, [])) := by
  induction cs with
  | nil => rfl
  | cons c rest ih =>
    unfold scanCells
    rw [scanCell_dry, ih]
    cases scanCell ts c fix false with
    | error e => rfl
    | ok p =>
      cases scanCells ts rest fix false with
      | error e => rfl
      | ok q => simp [Except.map]

/-- Helper: a dry-run scan is the real scan with its write-backs dropped. -/
theorem check_strings_scan_dry (records : List (List PyVal))
    (names types : List String) (fix : Bool) :
    check_strings_scan records names types fix true =
      (check_strings_scan records names types fix false).map (fun r => (r.1, [])) := by
  induction records with
  | nil => rfl
  | cons r rest ih =>
    unfold check_strings_scan scanRecord
    rw [scanCells_dry, ih]
    cases scanCells (r.headD .none) (zipCols r names types) fix false with
    | error e => rfl
    | ok p =>
      cases check_strings_scan rest names types fix false with
      | error e => rfl
      | ok q => simp [Except.map]

/-- C8: a dry-run repair scan produces the identical violation report to
the real repair scan (same violations, same replacement values, same
error if any), issues no write-backs, and applying no write-backs leaves
the stored records unchanged. -/
theorem dry_run_report_no_writes :
    (∀ records names types fix,
        check_strings_scan records names types fix true =
          (check_strings_scan records names types fix false).map (fun r => (r.1, []))) ∧
    (∀ records names types fix f u,
        check_strings_scan records names types fix true = .ok (f, u) → u = []) ∧
    (∀ names records, applyUpdates names records [] = records) := by
  refine ⟨check_strings_scan_dry, ?_, fun _ _ => rfl⟩
  intro records names types fix f u hp
  rw [check_strings_scan_dry] at hp
  cases hq : check_strings_scan records names types fix false with
  | error e => rw [hq] at hp; exact Except.noConfusion hp
  | ok p =>
    rw [hq] at hp
    cases hp
    rfl

/-- Witness for `dry_run_report_no_writes`: a dry-run repair scan of a
store with one violation issues no write-backs. -/
theorem dry_run_report_no_writes_witness :
    check_strings_scan [[PyVal.int 1000, PyVal.str "3"]] ["dateTime", "outTemp"]
        ["INTEGER", "REAL"] true true =
      .ok ([⟨.int 1000, "outTemp", .str "3", some (.float 3)⟩], []) ∧
    ([] : List Upd) = [] :=
  ⟨by decide,
   dry_run_report_no_writes.2.1 [[PyVal.int 1000, PyVal.str "3"]]
     ["dateTime", "outTemp"] ["INTEGER", "REAL"] true
     [⟨.int 1000, "outTemp", .str "3", some (.float 3)⟩] [] (by decide)⟩

/-- Helper: every entry a fix-mode cell scan appends records a
replacement value. -/
theorem scanCells_fix_repl (ts : PyVal) (cs : List (PyVal × String × String))
    (dry : Bool) (fs : List FoundEntry) (us : List Upd)
    (hp : scanCells ts cs true dry = .ok (fs, us)) :
    ∀ e ∈ fs, e.repl.isSome := by
  induction cs generalizing fs us with
  | nil => cases hp; intro e he; cases he
  | cons c rest ih =>
    unfold scanCells at hp
    cases hc : scanCell ts c true dry with
    | error e => rw [hc] at hp; exact Except.noConfusion hp
    | ok p =>
      rw [hc] at hp
      cases hr : scanCells ts rest true dry with
      | error e => rw [hr] at hp; exact Except.noConfusion hp
      | ok q =>
        rw [hr] at hp
        cases hp
        intro e he
        rcases List.mem_append.mp he with h1 | h2
        · -- e comes from the head cell; fix-mode entries always carry some replacement
          unfold scanCell at hc
          by_cases hn : c.1 = PyVal.none
          · rw [if_pos hn] at hc; cases hc; cases h1
          · rw [if_neg hn] at hc
            cases hck : check_type c.1 c.2.2 with
            | error e2 => rw [hck] at hc; exact Except.noConfusion hc
            | ok b =>
              rw [hck] at hc
              cases b with
              | true => cases hc; cases h1
              | false =>
                cases hc
                simp only [Option.toList_some, List.mem_singleton] at h1
                subst h1
                rfl
        · exact ih q.1 q.2 (by rw [hr]) e h2

/-- Helper: every entry a fix-mode scan reports records a replacement. -/
theorem scan_fix_repl (records : List (List PyVal)) (names types : List String)
    (dry : Bool) (f : List FoundEntry) (u : List Upd)
    (hp : check_strings_scan records names types true dry = .ok (f, u)) :
    ∀ e ∈ f, e.repl.isSome := by
  induction records generalizing f u with
  | nil => cases hp; intro e he; cases he
  | cons r rest ih =>
    unfold check_strings_scan at hp
    cases hc : scanRecord r names types true dry with
    | error e => rw [hc] at hp; exact Except.noConfusion hp
    | ok p =>
      rw [hc] at hp
      cases hr : check_strings_scan rest names types true dry with
      | error e => rw [hr] at hp; exact Except.noConfusion hp
      | ok q =>
        rw [hr] at hp
        cases hp
        intro e he
        rcases List.mem_append.mp he with h1 | h2
        · exact scanCells_fix_repl _ _ _ p.1 p.2 (by rw [← hc]; rfl) e h1
        · exact ih q.1 q.2 (by rw [hr]) e h2

/-- C4 (amended): in fix mode every reported violation records a
replacement value (coerced or sentinel alike), so the fixed count always
equals the found count and the summary reports the all-fixed outcome
whenever violations were found; the partial-repair branch is unreachable
from a fix-mode scan. -/
theorem fix_mode_summary_all_fixed (records : List (List PyVal))
    (names types : List String) (dry : Bool) (f : List FoundEntry) (u : List Upd)
    (hp : check_strings_scan records names types true dry = .ok (f, u)) :
    (∀ e ∈ f, e.repl.isSome) ∧ fixedCount f = f.length ∧
      (f ≠ [] → summarize f true = .allFixed) := by
  have hall := scan_fix_repl records names types dry f u hp
  have hcnt : fixedCount f = f.length := by
    unfold fixedCount
    rw [List.filter_eq_self.mpr hall]
  refine ⟨hall, hcnt, fun hne => ?_⟩
  unfold summarize
  rw [if_neg (fun h0 => hne (List.eq_nil_of_length_eq_zero h0)), if_pos hcnt]

/-- Witness for `fix_mode_summary_all_fixed` on a store with one coerced
and one sentinel repair. -/
theorem fix_mode_summary_all_fixed_witness :
    summarize [⟨.int 1000, "outTemp", .str "3", some (.float 3)⟩,
               ⟨.int 2000, "outTemp", .str "abc", some PyVal.none⟩] true =
      .allFixed :=
  (fix_mode_summary_all_fixed [[.int 1000, .str "3"], [.int 2000, .str "abc"]]
      ["dateTime", "outTemp"] ["INTEGER", "REAL"] false
      [⟨.int 1000, "outTemp", .str "3", some (.float 3)⟩,
       ⟨.int 2000, "outTemp", .str "abc", some PyVal.none⟩]
      [(.int 1000, "outTemp", .float 3), (.int 2000, "outTemp", PyVal.none)]
      (by decide)).2.2 (by decide)

/-- C4 counterexample: a fix-mode scan that coerces one violation and
sentinels another still selects the all-fixed summary outcome (fixed
count equals found count), not a distinct partial-repair outcome. -/
theorem sentinel_not_reported_partial :
    check_strings_scan [[.int 1000, .str "3"], [.int 2000, .str "abc"]]
        ["dateTime", "outTemp"] ["INTEGER", "REAL"] true false =
      .ok ([⟨.int 1000, "outTemp", .str "3", some (.float 3)⟩,
            ⟨.int 2000, "outTemp", .str "abc", some PyVal.none⟩],
           [(.int 1000, "outTemp", .float 3), (.int 2000, "outTemp", PyVal.none)]) ∧
    summarize [⟨.int 1000, "outTemp", .str "3", some (.float 3)⟩,
               ⟨.int 2000, "outTemp", .str "abc", some PyVal.none⟩] true =
      .allFixed ∧
    Outcome.allFixed ≠ Outcome.couldNotFixAll := by
  decide

/-- Helper: a successfully coerced value passes the type check. -/
theorem set_type_ok_check (v : PyVal) (t : String) (w : PyVal)
    (h : set_type v t = .ok w) : check_type w t = .ok true := by
  unfold set_type at h
  by_cases h1 : t = "INTEGER"
  · subst h1
    rw [if_pos rfl] at h
    cases hv : pyInt v with
    | none => rw [hv] at h; exact Except.noConfusion h
    | some i => rw [hv] at h; cases h; rfl
  · rw [if_neg h1] at h
    by_cases h2 : t = "REAL"
    · subst h2
      rw [if_pos rfl] at h
      cases hv : pyFloat v with
      | none => rw [hv] at h; exact Except.noConfusion h
      | some q => rw [hv] at h; cases h; rfl
    · rw [if_neg h2] at h
      by_cases h3 : t = "STR" ∨ t = "TEXT"
      · rw [if_pos h3] at h
        cases v with
        | bytes bs =>
          dsimp only at h
          cases hd : utf8Decode bs with
          | none => rw [hd] at h; exact Except.noConfusion h
          | some cs =>
            rw [hd] at h; cases h
            rcases h3 with rfl | rfl <;> rfl
        | none => dsimp only at h; cases h; rcases h3 with rfl | rfl <;> rfl
        | int i => dsimp only at h; cases h; rcases h3 with rfl | rfl <;> rfl
        | float q => dsimp only at h; cases h; rcases h3 with rfl | rfl <;> rfl
        | str s => dsimp only at h; cases h; rcases h3 with rfl | rfl <;> rfl
      · rw [if_neg h3] at h; exact Except.noConfusion h

/-- Helper: a repaired cell is always null or type-correct. -/
theorem repair_cellOK (v : PyVal) (t : String) : cellOK (repair v t) t := by
  unfold repair
  cases hs : set_type v t with
  | error e => exact Or.inl rfl
  | ok w => exact Or.inr (set_type_ok_check v t w hs)

/-- Helper: on a known type the type check never raises. -/
theorem check_type_known (v : PyVal) (t : String) (h : knownType t) :
    ∃ b, check_type v t = .ok b := by
  rcases h with rfl | rfl | rfl | rfl <;> exact ⟨_, rfl⟩

/-- Helper: a row of null-or-passing cells contributes nothing to the
report and no write-backs. -/
theorem scanCells_clean (ts : PyVal) (cs : List (PyVal × String × String))
    (fix dry : Bool) (h : ∀ c ∈ cs, cellOK c.1 c.2.2) :
    scanCells ts cs fix dry = .ok ([], []) := by
  induction cs with
  | nil => rfl
  | cons c rest ih =>
    have hcell : scanCell ts c fix dry = .ok (none, []) := by
      rcases h c (List.mem_cons_self c rest) with hc | hc
      · unfold scanCell; rw [if_pos hc]
      · unfold scanCell
        by_cases hn : c.1 = PyVal.none
        · rw [if_pos hn]
        · rw [if_neg hn, hc]
    unfold scanCells
    rw [hcell, ih (fun c2 hm => h c2 (List.mem_cons_of_mem _ hm))]
    rfl

/-- Helper: scanning a store with no type mismatches yields an empty
report and no write-backs. -/
theorem scan_clean (records : List (List PyVal)) (names types : List String)
    (fix dry : Bool) (h : cleanStore records names types) :
    check_strings_scan records names types fix dry = .ok ([], []) := by
  induction records with
  | nil => rfl
  | cons r rest ih =>
    unfold check_strings_scan
    rw [show scanRecord r names types fix dry = .ok ([], []) from
          scanCells_clean _ _ _ _ (h r (List.mem_cons_self r rest)),
        ih (fun r2 hm => h r2 (List.mem_cons_of_mem _ hm))]
    rfl

/-- Helper: componentwise description of indexing a zipped list. -/
theorem zip_get?_iff {α β : Type} (l1 : List α) (l2 : List β) (i : Nat)
    (a : α) (b : β) :
    (l1.zip l2).get? i = some (a, b) ↔
      l1.get? i = some a ∧ l2.get? i = some b := by
  induction l1 generalizing l2 i with
  | nil => simp
  | cons x xs ih =>
    cases l2 with
    | nil => simp
    | cons y ys =>
      cases i with
      | zero => simp [List.zip_cons_cons, And.comm]
      | succ n => simpa [List.zip_cons_cons] using ih ys n

/-- Helper: a list whose index 0 is `some a` has head `a`. -/
theorem headD_of_get?0 {α : Type} (l : List α) (d a : α)
    (h : l.get? 0 = some a) : l.headD d = a := by
  cases l with
  | nil => exact Option.noConfusion h
  | cons x xs => cases h; rfl

/-- Helper: a point write preserves the row width (up to the schema). -/
theorem setCol_length (r : List PyVal) (names : List String) (col : String)
    (v : PyVal) : (setCol r names col v).length = min r.length names.length := by
  simp [setCol]

/-- Helper: cellwise description of a point write. -/
theorem setCol_get? (r : List PyVal) (names : List String) (col : String)
    (v : PyVal) (i : Nat) (vi : PyVal) (ni : String)
    (hv : r.get? i = some vi) (hn : names.get? i = some ni) :
    (setCol r names col v).get? i = some (if ni = col then v else vi) := by
  unfold setCol
  rw [List.get?_map, (zip_get?_iff r names i vi ni).mpr ⟨hv, hn⟩]
  rfl

/-- Helper: one update step preserves the row width. -/
theorem stepRecord_length (names : List String) (u : Upd) (r : List PyVal)
    (hlen : r.length = names.length) :
    (stepRecord names u r).length = r.length := by
  unfold stepRecord
  split
  · rw [setCol_length, hlen, min_self]
  · rfl

/-- Helper: one update step whose column is not the key column preserves
the row's timestamp key. -/
theorem stepRecord_headD (names : List String) (n0 : String)
    (h0 : names.get? 0 = some n0) (u : Upd) (hu : u.2.1 ≠ n0) (r : List PyVal) :
    (stepRecord names u r).headD PyVal.none = r.headD PyVal.none := by
  unfold stepRecord
  by_cases hc : r.headD PyVal.none = u.1
  · rw [if_pos hc]
    cases r with
    | nil => rfl
    | cons v0 rtl =>
      cases names with
      | nil => exact Option.noConfusion h0
      | cons nm ntl =>
        have hnm : nm = n0 := by cases h0; rfl
        have hne : ¬(nm = u.2.1) := fun hh => hu (hh ▸ hnm)
        simp [setCol, hne]
  · rw [if_neg hc]

/-- Helper: cellwise description of one update step. -/
theorem stepRecord_get? (names : List String) (u : Upd) (r : List PyVal)
    (i : Nat) (vi : PyVal) (ni : String)
    (hv : r.get? i = some vi) (hn : names.get? i = some ni) :
    (stepRecord names u r).get? i =
      some (if r.headD PyVal.none = u.1 ∧ ni = u.2.1 then u.2.2 else vi) := by
  unfold stepRecord
  by_cases hc : r.headD PyVal.none = u.1
  · rw [if_pos hc, setCol_get? r names u.2.1 u.2.2 i vi ni hv hn]
    by_cases hni : ni = u.2.1
    · rw [if_pos hni, if_pos ⟨hc, hni⟩]
    · rw [if_neg hni, if_neg (fun hh => hni hh.2)]
  · rw [if_neg hc, hv, if_neg (fun hh => hc hh.1)]

/-- Helper: applying all updates preserves the row width. -/
theorem foldRecord_length (names : List String) (us : List Upd) (r : List PyVal)
    (hlen : r.length = names.length) :
    (foldRecord names us r).length = r.length := by
  induction us generalizing r with
  | nil => rfl
  | cons u rest ih =>
    have hs := stepRecord_length names u r hlen
    calc (foldRecord names rest (stepRecord names u r)).length
        = (stepRecord names u r).length := ih _ (hs.trans hlen)
      _ = r.length := hs

/-- Helper: every write-back a fix-mode row scan emits comes from a
non-null cell that failed its type check, and carries the repaired value
keyed by the row's timestamp. -/
theorem scanCells_upd_src (ts : PyVal) (cs : List (PyVal × String × String))
    (fs : List FoundEntry) (us : List Upd)
    (hp : scanCells ts cs true false = .ok (fs, us)) :
    ∀ u ∈ us, ∃ c ∈ cs, c.1 ≠ PyVal.none ∧ check_type c.1 c.2.2 = .ok false ∧
      u = (ts, c.2.1, repair c.1 c.2.2) := by
  induction cs generalizing fs us with
  | nil => cases hp; intro u hu; cases hu
  | cons c rest ih =>
    unfold scanCells at hp
    cases hcell : scanCell ts c true false with
    | error e => rw [hcell] at hp; exact Except.noConfusion hp
    | ok p =>
      rw [hcell] at hp
      cases hrest : scanCells ts rest true false with
      | error e => rw [hrest] at hp; exact Except.noConfusion hp
      | ok q =>
        rw [hrest] at hp
        cases hp
        intro u hu
        rcases List.mem_append.mp hu with h1 | h2
        · -- u was emitted by the head cell
          unfold scanCell at hcell
          by_cases hn : c.1 = PyVal.none
          · rw [if_pos hn] at hcell; cases hcell; cases h1
          · rw [if_neg hn] at hcell
            cases hck : check_type c.1 c.2.2 with
            | error e2 => rw [hck] at hcell; exact Except.noConfusion hcell
            | ok b =>
              rw [hck] at hcell
              cases b with
              | true => cases hcell; cases h1
              | false =>
                cases hcell
                have h1x : u = (ts, c.2.1, repair c.1 c.2.2) := by
                  simpa using h1
                exact ⟨c, List.mem_cons_self c rest, hn, hck, h1x⟩
        · obtain ⟨c2, hc2, hrest2⟩ := ih q.1 q.2 (by rw [hrest]) u h2
          exact ⟨c2, List.mem_cons_of_mem _ hc2, hrest2⟩

/-- Helper: every write-back the fix-mode scan emits comes from a
violating cell of one of the records. -/
theorem scan_upd_src (records : List (List PyVal)) (names types : List String)
    (f : List FoundEntry) (us : List Upd)
    (hp : check_strings_scan records names types true false = .ok (f, us)) :
    ∀ u ∈ us, ∃ r ∈ records, ∃ c ∈ zipCols r names types,
      c.1 ≠ PyVal.none ∧ check_type c.1 c.2.2 = .ok false ∧
      u = (r.headD PyVal.none, c.2.1, repair c.1 c.2.2) := by
  induction records generalizing f us with
  | nil => cases hp; intro u hu; cases hu
  | cons r rest ih =>
    unfold check_strings_scan at hp
    cases hc : scanRecord r names types true false with
    | error e => rw [hc] at hp; exact Except.noConfusion hp
    | ok p =>
      rw [hc] at hp
      cases hr : check_strings_scan rest names types true false with
      | error e => rw [hr] at hp; exact Except.noConfusion hp
      | ok q =>
        rw [hr] at hp
        cases hp
        intro u hu
        rcases List.mem_append.mp hu with h1 | h2
        · obtain ⟨c, hcm, hrest⟩ :=
            scanCells_upd_src (r.headD PyVal.none) (zipCols r names types)
              p.1 p.2 (by rw [← hc]; rfl) u h1
          exact ⟨r, List.mem_cons_self r rest, c, hcm, hrest⟩
        · obtain ⟨r2, hr2, hrest⟩ := ih q.1 q.2 (by rw [hr]) u h2
          exact ⟨r2, List.mem_cons_of_mem _ hr2, hrest⟩

/-- Helper: every violating cell of a row gets a write-back emitted by
the fix-mode row scan. -/
theorem scanCells_cover (ts : PyVal) (cs : List (PyVal × String × String))
    (fs : List FoundEntry) (us : List Upd)
    (hp : scanCells ts cs true false = .ok (fs, us)) :
    ∀ c ∈ cs, c.1 ≠ PyVal.none → check_type c.1 c.2.2 = .ok false →
      (ts, c.2.1, repair c.1 c.2.2) ∈ us := by
  induction cs generalizing fs us with
  | nil => intro c hc; cases hc
  | cons c0 rest ih =>
    unfold scanCells at hp
    cases hcell : scanCell ts c0 true false with
    | error e => rw [hcell] at hp; exact Except.noConfusion hp
    | ok p =>
      rw [hcell] at hp
      cases hrest : scanCells ts rest true false with
      | error e => rw [hrest] at hp; exact Except.noConfusion hp
      | ok q =>
        rw [hrest] at hp
        cases hp
        intro c hc hn hck
        rcases List.mem_cons.mp hc with rfl | hmem
        · -- the head cell: its write-back is the head of the emitted list
          unfold scanCell at hcell
          rw [if_neg hn, hck] at hcell
          cases hcell
          exact List.mem_append_left _ (by simp)
        · exact List.mem_append_right _ (ih q.1 q.2 (by rw [hrest]) c hmem hn hck)

/-- Helper: every violating cell of every record gets a write-back. -/
theorem scan_cover (records : List (List PyVal)) (names types : List String)
    (f : List FoundEntry) (us : List Upd)
    (hp : check_strings_scan records names types true false = .ok (f, us)) :
    ∀ r ∈ records, ∀ c ∈ zipCols r names types, c.1 ≠ PyVal.none →
      check_type c.1 c.2.2 = .ok false →
      (r.headD PyVal.none, c.2.1, repair c.1 c.2.2) ∈ us := by
  induction records generalizing f us with
  | nil => intro r hr; cases hr
  | cons r0 rest ih =>
    unfold check_strings_scan at hp
    cases hc : scanRecord r0 names types true false with
    | error e => rw [hc] at hp; exact Except.noConfusion hp
    | ok p =>
      rw [hc] at hp
      cases hr : check_strings_scan rest names types true false with
      | error e => rw [hr] at hp; exact Except.noConfusion hp
      | ok q =>
        rw [hr] at hp
        cases hp
        intro r hrm c hcm hn hck
        rcases List.mem_cons.mp hrm with rfl | hmem
        · exact List.mem_append_left _
            (scanCells_cover (r.headD PyVal.none) (zipCols r names types)
              p.1 p.2 (by rw [← hc]; rfl) c hcm hn hck)
        · exact List.mem_append_right _ (ih q.1 q.2 (by rw [hr]) r hmem c hcm hn hck)

/-- Helper: a successful index lookup is within bounds. -/
theorem lt_of_get?_eq_some {α : Type} (l : List α) (i : Nat) (a : α)
    (h : l.get? i = some a) : i < l.length := by
  by_contra hge
  rw [List.get?_eq_none.mpr (Nat.le_of_not_lt hge)] at h
  exact Option.noConfusion h

/-- Helper: an in-bounds index has a value. -/
theorem get?_some_of_lt {α : Type} (l : List α) (i : Nat) (h : i < l.length) :
    ∃ a, l.get? i = some a :=
  ⟨l.get ⟨i, h⟩, List.get?_eq_get h⟩

/-- Helper: every emitted write-back carries a value that is null or
passes the type declared (somewhere) for its column name. -/
theorem scan_upd_good (records : List (List PyVal)) (names types : List String)
    (f : List FoundEntry) (us : List Upd)
    (hp : check_strings_scan records names types true false = .ok (f, us)) :
    ∀ u ∈ us, ∃ t, (u.2.1, t) ∈ names.zip types ∧ cellOK u.2.2 t := by
  intro u hu
  obtain ⟨r, hr, c, hc, hn, hck, hue⟩ := scan_upd_src records names types f us hp u hu
  obtain ⟨v, n2, t2⟩ := c
  subst hue
  exact ⟨t2, (List.of_mem_zip hc).2, repair_cellOK v t2⟩

/-- Helper: when the key column's own values pass their type check and
column names are distinct, no emitted write-back targets the key column. -/
theorem scan_upd_not_head (records : List (List PyVal)) (names types : List String)
    (f : List FoundEntry) (us : List Upd)
    (h1 : names.Nodup)
    (h5 : ∀ r ∈ records, check_type (r.headD PyVal.none) (types.headD "") = .ok true)
    (hp : check_strings_scan records names types true false = .ok (f, us))
    (n0 : String) (h0 : names.get? 0 = some n0) :
    ∀ u ∈ us, u.2.1 ≠ n0 := by
  intro u hu heq
  obtain ⟨r, hr, c, hc, hn, hck, hue⟩ := scan_upd_src records names types f us hp u hu
  obtain ⟨v, n2, t2⟩ := c
  obtain ⟨i, hi⟩ := List.mem_iff_get?.mp hc
  have hiv := (zip_get?_iff r (names.zip types) i v (n2, t2)).mp hi
  have hnm := (zip_get?_iff names types i n2 t2).mp hiv.2
  have hn2 : n2 = n0 := by rw [hue] at heq; exact heq
  subst hn2
  have hlt : i < names.length := lt_of_get?_eq_some names i n2 hnm.1
  have hi0 : i = 0 := List.get?_inj hlt h1 (hnm.1.trans h0.symm)
  subst hi0
  have hhead : r.headD PyVal.none = v := headD_of_get?0 r _ v hiv.1
  have htt : types.headD "" = t2 := headD_of_get?0 types _ t2 hnm.2
  have hpass := h5 r hr
  rw [hhead, htt, hck] at hpass
  exact Bool.noConfusion (Except.ok.inj hpass)

/-- Helper: after applying all updates, a cell either still holds its
original value with no update ever matching it, or holds the value of
some applied update for its column. -/
theorem foldRecord_cell (names : List String) (n0 : String)
    (h0 : names.get? 0 = some n0) (us : List Upd) (hus : ∀ u ∈ us, u.2.1 ≠ n0)
    (r : List PyVal) (hlen : r.length = names.length)
    (i : Nat) (vi : PyVal) (ni : String)
    (hv : r.get? i = some vi) (hn : names.get? i = some ni) :
    ((foldRecord names us r).get? i = some vi ∧
        ∀ u ∈ us, ¬(u.1 = r.headD PyVal.none ∧ u.2.1 = ni)) ∨
      (∃ u ∈ us, u.2.1 = ni ∧ (foldRecord names us r).get? i = some u.2.2) := by
  induction us generalizing r vi with
  | nil => exact Or.inl ⟨hv, fun u hu => absurd hu (List.not_mem_nil u)⟩
  | cons u rest ih =>
    have hstep := stepRecord_get? names u r i vi ni hv hn
    have hslen : (stepRecord names u r).length = r.length :=
      stepRecord_length names u r hlen
    have hshead : (stepRecord names u r).headD PyVal.none = r.headD PyVal.none :=
      stepRecord_headD names n0 h0 u (hus u (List.mem_cons_self u rest)) r
    have hrest : ∀ u2 ∈ rest, u2.2.1 ≠ n0 :=
      fun u2 hm => hus u2 (List.mem_cons_of_mem _ hm)
    by_cases hmatch : r.headD PyVal.none = u.1 ∧ ni = u.2.1
    · rw [if_pos hmatch] at hstep
      rcases ih hrest (stepRecord names u r) (hslen.trans hlen) u.2.2 hstep with
        ⟨hfin, hnm⟩ | ⟨u2, hm2, hni2, hfin⟩
      · exact Or.inr ⟨u, List.mem_cons_self u rest, hmatch.2.symm, hfin⟩
      · exact Or.inr ⟨u2, List.mem_cons_of_mem _ hm2, hni2, hfin⟩
    · rw [if_neg hmatch] at hstep
      rcases ih hrest (stepRecord names u r) (hslen.trans hlen) vi hstep with
        ⟨hfin, hnm⟩ | ⟨u2, hm2, hni2, hfin⟩
      · refine Or.inl ⟨hfin, ?_⟩
        intro u3 hm3 hcon
        rcases List.mem_cons.mp hm3 with rfl | hm3r
        · exact hmatch ⟨hcon.1.symm, hcon.2.symm⟩
        · exact hnm u3 hm3r ⟨by rw [hshead]; exact hcon.1, hcon.2⟩
      · exact Or.inr ⟨u2, List.mem_cons_of_mem _ hm2, hni2, hfin⟩

/-- Helper: after a covering, good, key-preserving update list is applied
to a row, every cell is null or passes its declared type. -/
theorem foldRecord_clean (names types : List String)
    (h1 : names.Nodup) (h2 : ∀ t ∈ types, knownType t)
    (us : List Upd)
    (hgood : ∀ u ∈ us, ∃ t, (u.2.1, t) ∈ names.zip types ∧ cellOK u.2.2 t)
    (n0 : String) (h0 : names.get? 0 = some n0)
    (hus0 : ∀ u ∈ us, u.2.1 ≠ n0)
    (r : List PyVal) (hlen : r.length = names.length)
    (hcover : ∀ c ∈ zipCols r names types, c.1 ≠ PyVal.none →
        check_type c.1 c.2.2 = .ok false →
        (r.headD PyVal.none, c.2.1, repair c.1 c.2.2) ∈ us)
    (i : Nat) (w : PyVal) (ti : String)
    (hw : (foldRecord names us r).get? i = some w) (ht : types.get? i = some ti) :
    cellOK w ti := by
  have hflen : (foldRecord names us r).length = r.length :=
    foldRecord_length names us r hlen
  have hilt : i < r.length := by
    have hx := lt_of_get?_eq_some _ i w hw
    rw [hflen] at hx
    exact hx
  obtain ⟨vi, hv⟩ := get?_some_of_lt r i hilt
  obtain ⟨ni, hn⟩ := get?_some_of_lt names i (by rw [← hlen]; exact hilt)
  rcases foldRecord_cell names n0 h0 us hus0 r hlen i vi ni hv hn with
    ⟨hfin, hnomatch⟩ | ⟨u, hu, hni, hfin⟩
  · have hwv : w = vi := by
      rw [hw] at hfin
      exact Option.some.inj hfin
    subst hwv
    by_contra hbad
    unfold cellOK at hbad
    push_neg at hbad
    obtain ⟨hne, hnotpass⟩ := hbad
    obtain ⟨b, hb⟩ := check_type_known w ti (h2 ti (List.get?_mem ht))
    have hbf : b = false := by
      cases b
      · rfl
      · exact absurd hb hnotpass
    subst hbf
    have hmemc : ((w, ni, ti) : PyVal × String × String) ∈ zipCols r names types :=
      List.get?_mem ((zip_get?_iff r (names.zip types) i w (ni, ti)).mpr
        ⟨hv, (zip_get?_iff names types i ni ti).mpr ⟨hn, ht⟩⟩)
    exact hnomatch _ (hcover (w, ni, ti) hmemc hne hb) ⟨rfl, rfl⟩
  · obtain ⟨t2, hmem2, hok2⟩ := hgood u hu
    obtain ⟨j, hj⟩ := List.mem_iff_get?.mp hmem2
    have hj2 := (zip_get?_iff names types j u.2.1 t2).mp hj
    have hjlt : j < names.length := lt_of_get?_eq_some names j u.2.1 hj2.1
    have hij : j = i := by
      apply List.get?_inj hjlt h1
      rw [hj2.1, hni, hn]
    subst hij
    have ht2 : t2 = ti := Option.some.inj (hj2.2.symm.trans ht)
    subst ht2
    have hwu : w = u.2.2 := by
      rw [hw] at hfin
      exact Option.some.inj hfin
    subst hwu
    exact hok2

/-- Helper: applying updates to a store is applying them to each row. -/
theorem applyUpdates_map (names : List String) (records : List (List PyVal))
    (us : List Upd) :
    applyUpdates names records us = records.map (foldRecord names us) := by
  induction us generalizing records with
  | nil => exact (List.map_id records).symm
  | cons u rest ih =>
    calc applyUpdates names records (u :: rest)
        = applyUpdates names (applyUpd names records u) rest := rfl
      _ = (applyUpd names records u).map (foldRecord names rest) := ih _
      _ = records.map (foldRecord names (u :: rest)) := by
          rw [show applyUpd names records u = records.map (stepRecord names u) from rfl,
            List.map_map]
          rfl

/-- C9: a successfully coerced value always passes the type check and a
failed coercion becomes the skipped null sentinel, hence a scan of a
store with no type mismatches reports zero violations, and rescanning a
store after a real repair run finds zero remaining violations (given a
schema with distinct column names, known declared types, rows matching
the schema width, and a type-correct timestamp column). -/
theorem repair_idempotent :
    (∀ v t w, set_type v t = .ok w → check_type w t = .ok true) ∧
    (∀ records names types fix dry, cleanStore records names types →
        check_strings_scan records names types fix dry = .ok ([], [])) ∧
    (∀ records names types f us,
        names.Nodup → (∀ t ∈ types, knownType t) →
        (∀ r ∈ records, r.length = names.length) →
        (∀ r ∈ records, check_type (r.headD PyVal.none) (types.headD "") = .ok true) →
        check_strings_scan records names types true false = .ok (f, us) →
        ∀ fix2 dry2,
          check_strings_scan (applyUpdates names records us) names types fix2 dry2 =
            .ok ([], [])) := by
  refine ⟨set_type_ok_check, scan_clean, ?_⟩
  intro records names types f us h1 h2 h3 h5 hp fix2 dry2
  cases h0m : names.get? 0 with
  | none =>
    have hnil : names = [] := by
      cases names with
      | nil => rfl
      | cons a l => exact Option.noConfusion h0m
    subst hnil
    have hus : us = [] := by
      cases us with
      | nil => rfl
      | cons u utl =>
        obtain ⟨r, hr, c, hc, -⟩ :=
          scan_upd_src records [] types f (u :: utl) hp u (List.mem_cons_self u utl)
        simp [zipCols] at hc
    subst hus
    rw [show applyUpdates [] records [] = records from rfl]
    exact scan_clean records [] types fix2 dry2
      (fun r hr c hc => by simp [zipCols] at hc)
  | some n0 =>
    have hgood := scan_upd_good records names types f us hp
    have hus0 := scan_upd_not_head records names types f us h1 h5 hp n0 h0m
    have hcov := scan_cover records names types f us hp
    rw [applyUpdates_map]
    apply scan_clean
    intro r2 hr2 c hc
    obtain ⟨r, hr, rfl⟩ := List.mem_map.mp hr2
    obtain ⟨i, hi⟩ := List.mem_iff_get?.mp hc
    obtain ⟨v, ni, ti⟩ := c
    have hiw := (zip_get?_iff _ (names.zip types) i v (ni, ti)).mp hi
    have hnt := (zip_get?_iff names types i ni ti).mp hiw.2
    exact foldRecord_clean names types h1 h2 us hgood n0 h0m hus0 r (h3 r hr)
      (hcov r hr) i v ti hiw.1 hnt.2

/-- Witness for `repair_idempotent`: rescanning the two-row store after
its repair run finds zero remaining violations. -/
theorem repair_idempotent_witness :
    check_strings_scan
        (applyUpdates ["dateTime", "outTemp"]
          [[.int 1000, .str "3"], [.int 2000, .str "abc"]]
          [(.int 1000, "outTemp", .float 3), (.int 2000, "outTemp", PyVal.none)])
        ["dateTime", "outTemp"] ["INTEGER", "REAL"] true false = .ok ([], []) :=
  repair_idempotent.2.2 [[.int 1000, .str "3"], [.int 2000, .str "abc"]]
    ["dateTime", "outTemp"] ["INTEGER", "REAL"]
    [⟨.int 1000, "outTemp", .str "3", some (.float 3)⟩,
     ⟨.int 2000, "outTemp", .str "abc", some PyVal.none⟩]
    [(.int 1000, "outTemp", .float 3), (.int 2000, "outTemp", PyVal.none)]
    (by decide) (by decide) (by decide) (by decide) (by decide) true false

end WeeDatabase
